import Mathlib

/-!
Shallow embedding of the Net Effective Rent calculator engine
(src/src/App.jsx) over the rationals.

JavaScript numbers are modelled as `ℚ`; a JS value that may be non-finite
(NaN or ±Infinity) is modelled as `Option ℚ`, with `none` standing for any
non-finite value, so `Number.isFinite n` becomes `n.isSome`.  All string
processing is done on `List Char`, mirroring the regular-expression
operations of the source character by character.
-/

/-- The constant `1e-9` used by the source both as the denominator floor
(`Math.max(1e-9, ...)`, line 350) and as the fit-out write-back tolerance
(`Math.abs(...) > 1e-9`, lines 333-344). -/
def eps : ℚ := 1 / 1000000000

/-- Model of `clamp` (App.jsx line 22):
`(n, min = 0) => (Number.isFinite(n) ? Math.max(min, n) : 0)`.
The possibly-non-finite argument is an `Option ℚ`. -/
def clamp (n : Option ℚ) (min : ℚ) : ℚ :=
  match n with
  | some q => max min q
  | none => 0

/-- Model of `safe` (App.jsx line 23):
`(n) => (Number.isFinite(n) ? n : 0)`. -/
def safe (n : Option ℚ) : ℚ :=
  match n with
  | some q => q
  | none => 0

/-- Numeric value of a list of decimal digit characters, most significant
first. -/
def digitsVal (ds : List Char) : ℕ :=
  ds.foldl (fun a c => 10 * a + (c.toNat - 48)) 0

/-- Optional leading sign accepted by JS `parseFloat`: a single `+` or `-`.
Returns whether the sign is negative, together with the remaining input. -/
def parseSign : List Char → Bool × List Char
  | '-' :: rest => (true, rest)
  | '+' :: rest => (false, rest)
  | l => (false, l)

/-- Mantissa of a JS decimal literal: digits, optionally followed by a dot
and further digits.  `none` when not a single digit is consumed, which is
the case in which `parseFloat` yields NaN.  Returns the mantissa value and
the unconsumed rest of the input. -/
def parseMantissa (l : List Char) : Option (ℚ × List Char) :=
  let ip := l.takeWhile Char.isDigit
  let r1 := l.dropWhile Char.isDigit
  match r1 with
  | '.' :: r2 =>
    let fp := r2.takeWhile Char.isDigit
    let r3 := r2.dropWhile Char.isDigit
    if ip.isEmpty && fp.isEmpty then none
    else some ((digitsVal ip : ℚ) + (digitsVal fp : ℚ) / (10 : ℚ) ^ fp.length, r3)
  | _ => if ip.isEmpty then none else some ((digitsVal ip : ℚ), r1)

/-- Value of an exponent part `e`/`E`, optional sign, digits.  It
contributes only when at least one digit follows the marker, because
`parseFloat` consumes the longest valid prefix and otherwise stops before
the `e`. -/
def expVal (l : List Char) : ℤ :=
  match l with
  | c :: rest =>
    if c = 'e' ∨ c = 'E' then
      let sr := parseSign rest
      let ds := sr.2.takeWhile Char.isDigit
      if ds.isEmpty then 0
      else if sr.1 then -(digitsVal ds : ℤ) else (digitsVal ds : ℤ)
    else 0
  | [] => 0

/-- Scale a mantissa by a signed power of ten. -/
def applyExp (m : ℚ) (e : ℤ) : ℚ :=
  if 0 ≤ e then m * (10 : ℚ) ^ e.toNat else m / (10 : ℚ) ^ (-e).toNat

/-- Model of JS `parseFloat` over the rationals: `some q` when the longest
numeric prefix of the string denotes the finite value `q`; `none` when
`parseFloat` yields NaN (no numeric prefix at all) or ±Infinity (an
`Infinity` literal) — exactly the cases in which `Number.isFinite` fails
on the result. -/
def parseFloatQ (s : String) : Option ℚ :=
  let l := s.toList.dropWhile Char.isWhitespace
  let sr := parseSign l
  if sr.2.take 8 = ['I', 'n', 'f', 'i', 'n', 'i', 't', 'y'] then none
  else
    match parseMantissa sr.2 with
    | none => none
    | some mr =>
      some (if sr.1 then -(applyExp mr.1 (expVal mr.2)) else applyExp mr.1 (expVal mr.2))

/-- Whitespace removal performed by `P` (App.jsx line 25):
`String(v ?? "").trim().replace(/\s/g, "")` deletes every whitespace
character of the input. -/
def stripWS (s : String) : String :=
  String.mk (s.toList.filter (fun c => !c.isWhitespace))

/-- Number of commas of the string, `(s.match(/,/g) || []).length`
(App.jsx line 27). -/
def countComma : List Char → ℕ
  | [] => 0
  | c :: cs => (if c = ',' then 1 else 0) + countComma cs

/-- Whether the string contains a dot, `s.includes(".")` (App.jsx
line 26). -/
def hasDot (s : String) : Bool :=
  s.toList.contains '.'

/-- JS `s.replace(",", ".")` (App.jsx line 28): only the first comma is
replaced.  In `P` this runs only when the string holds exactly one
comma. -/
def replaceFirstComma : List Char → List Char
  | [] => []
  | c :: cs => if c = ',' then '.' :: cs else c :: replaceFirstComma cs

/-- JS `s.replace(/,/g, "")` (App.jsx line 28): every comma is deleted. -/
def removeCommas : List Char → List Char
  | [] => []
  | c :: cs => if c = ',' then removeCommas cs else c :: removeCommas cs

/-- Model of the tolerant numeric field reader `P` (App.jsx lines 24-31):
strip all whitespace; when the string has no dot and exactly one comma,
replace that comma by a dot; otherwise delete all commas; parse with
`parseFloat`; degrade to `0` whenever the result is not finite. -/
def P (v : String) : ℚ :=
  let s := stripWS v
  let s2 :=
    if !(hasDot s) && countComma s.toList == 1 then String.mk (replaceFirstComma s.toList)
    else String.mk (removeCommas s.toList)
  match parseFloatQ s2 with
  | some n => n
  | none => 0

/-- Replace every comma by a dot. -/
def commasToDots : List Char → List Char
  | [] => []
  | c :: cs => (if c = ',' then '.' else c) :: commasToDots cs

/-- NumericParser exactly as worded by the specification (§4.1): strip
whitespace; when the stripped string contains no dot and exactly one
comma, treat that comma as the decimal point (turn it into a dot);
otherwise all commas are thousands separators (delete them) and any dot
stays the decimal point; parse the result as a float and return 0 when
the result is not finite. -/
def Pspec (v : String) : ℚ :=
  let s := stripWS v
  let s2 :=
    if !(hasDot s) && countComma s.toList == 1 then String.mk (commasToDots s.toList)
    else String.mk (removeCommas s.toList)
  match parseFloatQ s2 with
  | some n => n
  | none => 0

/-- The three fit-out entry modes of the form (App.jsx line 264 and
lines 330-345): per square metre of NLA, per square metre of GLA, or an
absolute total. -/
inductive FitMode where
  | perNLA : FitMode
  | perGLA : FitMode
  | total : FitMode
deriving DecidableEq

/-- The form state `f` of the application (App.jsx lines 256-269): every
numeric field is stored as a raw string, plus the fit-out mode. -/
structure AppState where
  tenant : String
  nla : String
  addon : String
  rent : String
  duration : String
  rf : String
  agent : String
  unforeseen : String
  fitMode : FitMode
  fitPerNLA : String
  fitPerGLA : String
  fitTot : String
deriving DecidableEq

/-- Source: `nla = clamp(P(f.nla))` (App.jsx line 309). -/
def nlaV (f : AppState) : ℚ := clamp (some (P f.nla)) 0

/-- Source: `addon = clamp(P(f.addon))` (App.jsx line 310). -/
def addonV (f : AppState) : ℚ := clamp (some (P f.addon)) 0

/-- Source: `rent = clamp(P(f.rent))` (App.jsx line 311). -/
def rentV (f : AppState) : ℚ := clamp (some (P f.rent)) 0

/-- Source: `duration = Math.max(0, Math.floor(P(f.duration)))` (App.jsx
line 312). -/
def durationV (f : AppState) : ℚ := max 0 ((⌊P f.duration⌋ : ℤ) : ℚ)

/-- Source: `rf = clamp(P(f.rf))` (App.jsx line 313). -/
def rfV (f : AppState) : ℚ := clamp (some (P f.rf)) 0

/-- Source: `agent = clamp(P(f.agent))` (App.jsx line 314). -/
def agentV (f : AppState) : ℚ := clamp (some (P f.agent)) 0

/-- Source: `unforeseen = clamp(P(f.unforeseen))` (App.jsx line 315). -/
def unforeseenV (f : AppState) : ℚ := clamp (some (P f.unforeseen)) 0

/-- Source: `gla = nla * (1 + addon / 100)` (App.jsx line 317). -/
def glaV (f : AppState) : ℚ := nlaV f * (1 + addonV f / 100)

/-- Source: `months = Math.max(0, duration - rf)` (App.jsx line 318). -/
def monthsV (f : AppState) : ℚ := max 0 (durationV f - rfV f)

/-- Source: `gross = rent * gla * months` (App.jsx line 319). -/
def grossV (f : AppState) : ℚ := rentV f * glaV f * monthsV f

/-- Source: `perNLA = clamp(P(f.fitPerNLA))` (App.jsx line 321). -/
def perNLAV (f : AppState) : ℚ := clamp (some (P f.fitPerNLA)) 0

/-- Source: `perGLA = clamp(P(f.fitPerGLA))` (App.jsx line 322). -/
def perGLAV (f : AppState) : ℚ := clamp (some (P f.fitPerGLA)) 0

/-- Source: `tot = clamp(P(f.fitTot))` (App.jsx line 323). -/
def totV (f : AppState) : ℚ := clamp (some (P f.fitTot)) 0

/-- Source: `totalFit` resolved from the authoritative field of the current mode
(App.jsx line 348). -/
def totalFitV (f : AppState) : ℚ :=
  match f.fitMode with
  | FitMode.perNLA => perNLAV f * nlaV f
  | FitMode.perGLA => perGLAV f * glaV f
  | FitMode.total => totV f

/-- Source: `agentFees = agent * rent * gla` (App.jsx line 349). -/
def agentFeesV (f : AppState) : ℚ := agentV f * rentV f * glaV f

/-- Source: `denom = Math.max(1e-9, duration * gla)` (App.jsx line 350). -/
def denomV (f : AppState) : ℚ := max eps (durationV f * glaV f)

/-- Source: `ner1 = gross / denom` (App.jsx line 352). -/
def ner1V (f : AppState) : ℚ := grossV f / denomV f

/-- Source: `ner2 = (gross - totalFit) / denom` (App.jsx line 353). -/
def ner2V (f : AppState) : ℚ := (grossV f - totalFitV f) / denomV f

/-- Source: `ner3 = (gross - totalFit - agentFees) / denom` (App.jsx line 354). -/
def ner3V (f : AppState) : ℚ := (grossV f - totalFitV f - agentFeesV f) / denomV f

/-- Source: `ner4 = (gross - totalFit - agentFees - unforeseen) / denom` (App.jsx
line 355). -/
def ner4V (f : AppState) : ℚ := (grossV f - totalFitV f - agentFeesV f - unforeseenV f) / denomV f

/-- The three stored fit-out quantities, after parse and clamp (App.jsx
lines 327-329). -/
structure FitState where
  perNLA : ℚ
  perGLA : ℚ
  tot : ℚ
deriving DecidableEq

/-- One run of the fit-out synchronization effect (App.jsx lines
326-346).  Returns the stored values after the run together with the
number of field writes performed: a derived field is written back only
when it differs from its freshly derived value by more than `1e-9`. -/
def reconcile (mode : FitMode) (nla gla : ℚ) (st : FitState) : FitState × ℕ :=
  match mode with
  | FitMode.perNLA =>
    let t := st.perNLA * nla
    let g := if 0 < gla then t / gla else 0
    (⟨st.perNLA,
      if eps < |g - st.perGLA| then g else st.perGLA,
      if eps < |t - st.tot| then t else st.tot⟩,
     (if eps < |t - st.tot| then 1 else 0) + (if eps < |g - st.perGLA| then 1 else 0))
  | FitMode.perGLA =>
    let t := st.perGLA * gla
    let n := if 0 < nla then t / nla else 0
    (⟨if eps < |n - st.perNLA| then n else st.perNLA,
      st.perGLA,
      if eps < |t - st.tot| then t else st.tot⟩,
     (if eps < |t - st.tot| then 1 else 0) + (if eps < |n - st.perNLA| then 1 else 0))
  | FitMode.total =>
    let n := if 0 < nla then st.tot / nla else 0
    let g := if 0 < gla then st.tot / gla else 0
    (⟨if eps < |n - st.perNLA| then n else st.perNLA,
      if eps < |g - st.perGLA| then g else st.perGLA,
      st.tot⟩,
     (if eps < |n - st.perNLA| then 1 else 0) + (if eps < |g - st.perGLA| then 1 else 0))

/-- The total fit-out amount implied by the mode's authoritative stored
field: the exact quantity the reconciler derives the other two fields
from. -/
def impliedTotal (mode : FitMode) (nla gla : ℚ) (st : FitState) : ℚ :=
  match mode with
  | FitMode.perNLA => st.perNLA * nla
  | FitMode.perGLA => st.perGLA * gla
  | FitMode.total => st.tot

/-- A sparse scenario override set (App.jsx lines 275-292): a key that is
absent inherits the baseline value. -/
structure Overrides where
  nla : Option String
  addon : Option String
  rent : Option String
  duration : Option String
  rf : Option String
  agent : Option String
  unforeseen : Option String
  fitPerNLA : Option String

/-- The spread `{ ...f, ...sc.overrides }` (App.jsx line 411): an
override replaces the baseline string exactly when it is present. -/
def mergeVals (f : AppState) (ov : Overrides) : AppState :=
  { f with
    nla := ov.nla.getD f.nla,
    addon := ov.addon.getD f.addon,
    rent := ov.rent.getD f.rent,
    duration := ov.duration.getD f.duration,
    rf := ov.rf.getD f.rf,
    agent := ov.agent.getD f.agent,
    unforeseen := ov.unforeseen.getD f.unforeseen,
    fitPerNLA := ov.fitPerNLA.getD f.fitPerNLA }

/-- Model of `calcScenarioNER` (App.jsx lines 362-384) applied to the
merged value record: the same parse, clamp, floor and formula steps as
the baseline chain, except that the fit-out total is always
`perNLA * nla` regardless of the fit-out mode. -/
def calcScenarioNER (vals : AppState) : ℚ :=
  let nlaS := clamp (some (P vals.nla)) 0
  let addonS := clamp (some (P vals.addon)) 0
  let glaS := nlaS * (1 + addonS / 100)
  let rentS := clamp (some (P vals.rent)) 0
  let durationS := max 0 ((⌊P vals.duration⌋ : ℤ) : ℚ)
  let rfS := clamp (some (P vals.rf)) 0
  let agentS := clamp (some (P vals.agent)) 0
  let unforeseenS := clamp (some (P vals.unforeseen)) 0
  let monthsS := max 0 (durationS - rfS)
  let grossS := rentS * glaS * monthsS
  let perNLAS := clamp (some (P vals.fitPerNLA)) 0
  let fitS := perNLAS * nlaS
  let agentFeesS := agentS * rentS * glaS
  let denomS := max eps (durationS * glaS)
  (grossS - fitS - agentFeesS - unforeseenS) / denomS

/-- One step of the waterfall chart data (App.jsx lines 402-408). -/
structure WFStep where
  name : String
  base : ℚ
  delta : ℚ
  isTotal : Bool
deriving DecidableEq

/-- Source: `dRF = safe(ner1 - rent)` (App.jsx line 396). -/
def dRF (f : AppState) : ℚ := safe (some (ner1V f - rentV f))

/-- Source: `dFO = safe(ner2 - ner1)` (App.jsx line 397). -/
def dFO (f : AppState) : ℚ := safe (some (ner2V f - ner1V f))

/-- Source: `dAF = safe(ner3 - ner2)` (App.jsx line 398). -/
def dAF (f : AppState) : ℚ := safe (some (ner3V f - ner2V f))

/-- Source: `dUC = safe(ner4 - ner3)` (App.jsx line 399). -/
def dUC (f : AppState) : ℚ := safe (some (ner4V f - ner3V f))

/-- The waterfall data fold (App.jsx lines 401-408): `cur` starts at
`safe(rent)` and accumulates the four deltas; the two anchors carry the
running value as their `delta` and are marked `isTotal`. -/
def wfData (f : AppState) : List WFStep :=
  let cur0 := safe (some (rentV f))
  let cur1 := cur0 + dRF f
  let cur2 := cur1 + dFO f
  let cur3 := cur2 + dAF f
  let cur4 := cur3 + dUC f
  [⟨"Headline", 0, cur0, true⟩,
   ⟨"RF", cur0, dRF f, false⟩,
   ⟨"FO", cur1, dFO f, false⟩,
   ⟨"AF", cur2, dAF f, false⟩,
   ⟨"UC", cur3, dUC f, false⟩,
   ⟨"Final NER", 0, cur4, true⟩]

/-- The worked-example baseline state of the specification (§8, item 9)
and of the initial form values (App.jsx lines 256-269). -/
def baseF : AppState :=
  { tenant := "", nla := "1000", addon := "5", rent := "15", duration := "60",
    rf := "5", agent := "2", unforeseen := "0", fitMode := FitMode.perNLA,
    fitPerNLA := "300", fitPerGLA := "", fitTot := "300000" }

/-- Second baseline used to exhibit the zero-NLA behaviour: NLA zero with a
nonzero unforeseen cost, fit-out entered per NLA. -/
def zeroNlaF1 : AppState :=
  { tenant := "", nla := "0", addon := "5", rent := "15", duration := "60",
    rf := "5", agent := "2", unforeseen := "1", fitMode := FitMode.perNLA,
    fitPerNLA := "0", fitPerGLA := "0", fitTot := "0" }

/-- Zero-NLA baseline in TOTAL fit-out mode with a nonzero stored total. -/
def zeroNlaF2 : AppState :=
  { tenant := "", nla := "0", addon := "5", rent := "15", duration := "60",
    rf := "5", agent := "2", unforeseen := "0", fitMode := FitMode.total,
    fitPerNLA := "0", fitPerGLA := "0", fitTot := "5" }

/-- Zero-NLA baseline with zero fit-out and zero unforeseen cost. -/
def zeroNlaF3 : AppState :=
  { tenant := "", nla := "0", addon := "5", rent := "15", duration := "60",
    rf := "5", agent := "2", unforeseen := "0", fitMode := FitMode.perNLA,
    fitPerNLA := "300", fitPerGLA := "", fitTot := "300000" }

/-- The scenario override of §8 item 7: only the rent is overridden, to 20. -/
def ovRent20 : Overrides :=
  { nla := none, addon := none, rent := some "20", duration := none,
    rf := none, agent := none, unforeseen := none, fitPerNLA := none }

theorem eps_pos : 0 < eps := by norm_num [eps]

theorem clamp0_nonneg (q : ℚ) : 0 ≤ clamp (some q) 0 := le_max_left 0 q

theorem denomV_pos (f : AppState) : 0 < denomV f :=
  lt_of_lt_of_le eps_pos (le_max_left _ _)

theorem commasToDots_of_no_comma (l : List Char) (h : countComma l = 0) :
    commasToDots l = l := by
  induction l with
  | nil => rfl
  | cons c cs ih =>
    by_cases hc : c = ','
    · rw [countComma, if_pos hc] at h
      exact absurd h (by omega)
    · rw [countComma, if_neg hc] at h
      rw [commasToDots, if_neg hc, ih (by omega)]

theorem replaceFirst_eq_commasToDots (l : List Char) (h : countComma l = 1) :
    replaceFirstComma l = commasToDots l := by
  induction l with
  | nil => rfl
  | cons c cs ih =>
    by_cases hc : c = ','
    · rw [countComma, if_pos hc] at h
      rw [replaceFirstComma, if_pos hc, commasToDots, if_pos hc,
        commasToDots_of_no_comma cs (by omega)]
    · rw [countComma, if_neg hc] at h
      rw [replaceFirstComma, if_neg hc, commasToDots, if_neg hc,
        ih (by omega)]

theorem P_eq_Pspec (s : String) : P s = Pspec s := by
  simp only [P, Pspec]
  by_cases h : (!(hasDot (stripWS s)) && countComma (stripWS s).toList == 1) = true
  · have hc : countComma (stripWS s).toList = 1 := by
      have hb := ((Bool.and_eq_true _ _).mp h).2
      simpa using hb
    rw [if_pos h, if_pos h, replaceFirst_eq_commasToDots _ hc]
  · rw [if_neg h, if_neg h]

/-- C1: on the worked-example inputs (nla 1000, add-on 5 %, rent 15,
duration 60, rent-free 5, agent 2, fit-out 300 per NLA, unforeseen 0) the
engine computes gla 1050, months 55, gross 866250, total fit-out 300000,
agent fees 31500, denominator 63000, and the four NER figures
866250/63000, 566250/63000, 534750/63000 and ner4 = ner3. -/
theorem claim1_worked_example :
    glaV baseF = 1050 ∧ monthsV baseF = 55 ∧ grossV baseF = 866250 ∧
    totalFitV baseF = 300000 ∧ agentFeesV baseF = 31500 ∧ denomV baseF = 63000 ∧
    ner1V baseF = 866250 / 63000 ∧ ner2V baseF = (866250 - 300000) / 63000 ∧
    ner3V baseF = (866250 - 300000 - 31500) / 63000 ∧ ner4V baseF = ner3V baseF :=
  ⟨by with_unfolding_all rfl, by with_unfolding_all rfl, by with_unfolding_all rfl,
   by with_unfolding_all rfl, by with_unfolding_all rfl, by with_unfolding_all rfl,
   by with_unfolding_all rfl, by with_unfolding_all rfl, by with_unfolding_all rfl,
   by with_unfolding_all rfl⟩

/-- C2 counterexample: the code's single-comma/no-dot rule makes
`P "1,234"` parse as the decimal 1.234, not as the thousands-grouped 1234
asserted by the claim, and `P "1.234,56"` parse as 1.23456, not
1234.56. -/
theorem claim2_counterexample :
    P "1,234" = 1234 / 1000 ∧ P "1,234" ≠ 1234 ∧
    P "1.234,56" = 123456 / 100000 ∧ P "1.234,56" ≠ 123456 / 100 := by
  have h1 : P "1,234" = 1234 / 1000 := by with_unfolding_all rfl
  have h2 : P "1.234,56" = 123456 / 100000 := by with_unfolding_all rfl
  refine ⟨h1, ?_, h2, ?_⟩
  · rw [h1]; norm_num
  · rw [h2]; norm_num

/-- C2 (amended): `P` follows exactly the spec's algorithm — strip
whitespace, use the comma as decimal point only in the no-dot
single-comma case, otherwise drop commas, parse as a float and degrade a
non-finite result to 0 — and on the examples `P "1,5" = 1.5`,
`P "1,234" = 1.234`, `P "1.234,56" = 1.23456`, `P "abc" = 0`;
`P` is a total function and never signals an error. -/
theorem claim2_parser_algorithm (s : String) :
    P s = Pspec s ∧ P "1,5" = 3 / 2 ∧ P "1,234" = 1234 / 1000 ∧
    P "1.234,56" = 123456 / 100000 ∧ P "abc" = 0 :=
  ⟨P_eq_Pspec s, by with_unfolding_all rfl, by with_unfolding_all rfl,
   by with_unfolding_all rfl, rfl⟩

/-- C9 counterexample: for a non-finite input the source's `clamp`
returns 0, not the requested minimum — with min 5 the claim expects 5 but
the code yields 0. -/
theorem claim9_counterexample : clamp none 5 = 0 ∧ clamp none 5 ≠ 5 := by
  refine ⟨rfl, ?_⟩
  rw [show clamp none 5 = 0 from rfl]
  norm_num

/-- C9 (amended): `clamp n min` returns `n` when `n` is finite and
`n ≥ min`, returns `min` when `n` is finite and `n < min`, and returns 0
(not `min`) when `n` is not finite. -/
theorem claim9_clamp_behavior (n : Option ℚ) (m : ℚ) :
    (∀ q : ℚ, n = some q → m ≤ q → clamp n m = q) ∧
    (∀ q : ℚ, n = some q → q < m → clamp n m = m) ∧
    (n = none → clamp n m = 0) := by
  refine ⟨?_, ?_, ?_⟩
  · intro q hq hle
    subst hq
    show max m q = q
    exact max_eq_right hle
  · intro q hq hlt
    subst hq
    show max m q = m
    exact max_eq_left hlt.le
  · intro hn
    subst hn
    rfl

/-- Witness for C9: clamp keeps 1 above floor 0, lifts 0 to floor 1, and
maps a non-finite value to 0. -/
theorem claim9_clamp_behavior_witness :
    clamp (some 1) 0 = 1 ∧ clamp (some 0) 1 = 1 ∧ clamp none 1 = 0 :=
  ⟨(claim9_clamp_behavior (some 1) 0).1 1 rfl zero_le_one,
   (claim9_clamp_behavior (some 0) 1).2.1 0 rfl zero_lt_one,
   (claim9_clamp_behavior none 1).2.2 rfl⟩

/-- C4 counterexample: with nla 0 the epsilon-floored denominator makes
the chain divide by 1e-9 instead of producing 0 — a unit unforeseen cost
gives ner4 = -10^9, and TOTAL mode with a stored total of 5 gives
ner2 = -5·10^9, so the NER outputs are not all 0. -/
theorem claim4_counterexample :
    nlaV zeroNlaF1 = 0 ∧ ner4V zeroNlaF1 ≠ 0 ∧
    nlaV zeroNlaF2 = 0 ∧ ner2V zeroNlaF2 ≠ 0 := by
  have h1 : ner4V zeroNlaF1 = -1000000000 := by with_unfolding_all rfl
  have h2 : ner2V zeroNlaF2 = -5000000000 := by with_unfolding_all rfl
  refine ⟨by with_unfolding_all rfl, ?_, by with_unfolding_all rfl, ?_⟩
  · rw [h1]; norm_num
  · rw [h2]; norm_num

/-- C4 (amended): the denominator is strictly positive for every input,
so the chain never divides by zero and every NER output is a finite
rational; with nla 0 the engine returns gla 0 and ner1 0, and when in
addition the resolved fit-out total and the unforeseen cost are 0 (in
particular in per-NLA or per-GLA mode with unforeseen 0), all of ner2,
ner3 and ner4 are 0 as well. -/
theorem claim4_zero_nla_safety (f : AppState) :
    0 < denomV f ∧
    (nlaV f = 0 → glaV f = 0 ∧ ner1V f = 0 ∧
      (totalFitV f = 0 → unforeseenV f = 0 →
        ner2V f = 0 ∧ ner3V f = 0 ∧ ner4V f = 0)) := by
  refine ⟨denomV_pos f, fun h => ?_⟩
  have hg : glaV f = 0 := by rw [glaV, h, zero_mul]
  have hgr : grossV f = 0 := by rw [grossV, hg, mul_zero, zero_mul]
  have haf : agentFeesV f = 0 := by rw [agentFeesV, hg, mul_zero]
  refine ⟨hg, ?_, fun ht hu => ⟨?_, ?_, ?_⟩⟩
  · rw [ner1V, hgr, zero_div]
  · rw [ner2V, hgr, ht, sub_zero, zero_div]
  · rw [ner3V, hgr, ht, haf, sub_zero, sub_zero, zero_div]
  · rw [ner4V, hgr, ht, haf, hu, sub_zero, sub_zero, sub_zero, zero_div]

/-- Witness for C4: on the zero-NLA state with fit-out per NLA and no
unforeseen cost, the denominator is positive and the whole chain is 0. -/
theorem claim4_zero_nla_safety_witness :
    0 < denomV zeroNlaF3 ∧ glaV zeroNlaF3 = 0 ∧ ner1V zeroNlaF3 = 0 ∧
    ner2V zeroNlaF3 = 0 ∧ ner3V zeroNlaF3 = 0 ∧ ner4V zeroNlaF3 = 0 := by
  obtain ⟨hd, h2⟩ := claim4_zero_nla_safety zeroNlaF3
  obtain ⟨hg, h1, h3⟩ := h2 (by with_unfolding_all rfl)
  obtain ⟨a, b, c⟩ := h3 (by with_unfolding_all rfl) (by with_unfolding_all rfl)
  exact ⟨hd, hg, h1, a, b, c⟩

/-- C5: a scenario resolves each of the eight overridable keys to the
override when present, else to the baseline value, and its NER equals the
baseline engine's ner4 on the merged record with the fit-out mode forced
to per-NLA — so the scenario fit-out total is always
`perNLA_effective * nla_effective`, whatever the baseline mode, and
every other step follows the engine's formulas exactly. -/
theorem claim5_scenario_resolution (f : AppState) (ov : Overrides) :
    (mergeVals f ov).nla = ov.nla.getD f.nla ∧
    (mergeVals f ov).addon = ov.addon.getD f.addon ∧
    (mergeVals f ov).rent = ov.rent.getD f.rent ∧
    (mergeVals f ov).duration = ov.duration.getD f.duration ∧
    (mergeVals f ov).rf = ov.rf.getD f.rf ∧
    (mergeVals f ov).agent = ov.agent.getD f.agent ∧
    (mergeVals f ov).unforeseen = ov.unforeseen.getD f.unforeseen ∧
    (mergeVals f ov).fitPerNLA = ov.fitPerNLA.getD f.fitPerNLA ∧
    calcScenarioNER (mergeVals f ov)
      = ner4V { mergeVals f ov with fitMode := FitMode.perNLA } ∧
    totalFitV { mergeVals f ov with fitMode := FitMode.perNLA }
      = perNLAV (mergeVals f ov) * nlaV (mergeVals f ov) :=
  ⟨rfl, rfl, rfl, rfl, rfl, rfl, rfl, rfl, rfl, rfl⟩

/-- C6: scenario resolution does not touch the baseline — on the §8
baseline, overriding only the rent to 20 yields exactly the engine result
with rent 20 and all other fields from the baseline (271/21), while the
baseline's own ner4 is 713/84 both before and after the scenario
computation (every function involved is pure). -/
theorem claim6_override_isolation :
    ner4V baseF = 713 / 84 ∧
    calcScenarioNER (mergeVals baseF ovRent20) = ner4V { baseF with rent := "20" } ∧
    calcScenarioNER (mergeVals baseF ovRent20) = 271 / 21 ∧
    ner4V baseF = 713 / 84 :=
  ⟨by with_unfolding_all rfl, by with_unfolding_all rfl,
   by with_unfolding_all rfl, by with_unfolding_all rfl⟩

/-- C7: the four waterfall deltas sum to ner4 - rent within 1e-9 (they
sum to it exactly), the final anchor step carries the fold
`rent + dRF + dFO + dAF + dUC` as its value, and that value equals ner4
within 1e-9 (again exactly). -/
theorem claim7_waterfall_consistency (f : AppState) :
    |dRF f + dFO f + dAF f + dUC f - (ner4V f - rentV f)| < eps ∧
    (wfData f).getLast? = some ⟨"Final NER", 0,
      List.foldl (fun a b => a + b) (rentV f) [dRF f, dFO f, dAF f, dUC f], true⟩ ∧
    |List.foldl (fun a b => a + b) (rentV f) [dRF f, dFO f, dAF f, dUC f] - ner4V f| < eps := by
  have hsum : dRF f + dFO f + dAF f + dUC f = ner4V f - rentV f := by
    simp only [dRF, dFO, dAF, dUC, safe]
    ring
  have hfold : List.foldl (fun a b => a + b) (rentV f) [dRF f, dFO f, dAF f, dUC f]
      = rentV f + (dRF f + dFO f + dAF f + dUC f) := by
    simp only [List.foldl]
    ring
  refine ⟨?_, rfl, ?_⟩
  · rw [hsum, sub_self, abs_zero]
    exact eps_pos
  · rw [hfold, hsum]
    have h0 : rentV f + (ner4V f - rentV f) - ner4V f = 0 := by ring
    rw [h0, abs_zero]
    exact eps_pos

theorem abs_if_stable (x old : ℚ) :
    ¬ eps < |x - if eps < |x - old| then x else old| := by
  split_ifs with h
  · rw [sub_self, abs_zero]
    exact lt_asymm eps_pos
  · exact h

theorem abs_if_write_le (x old : ℚ) :
    |(if eps < |x - old| then x else old) - x| ≤ eps := by
  split_ifs with h
  · rw [sub_self, abs_zero]
    exact eps_pos.le
  · rw [abs_sub_comm]
    exact le_of_not_lt h

/-- C8: one run of the reconciler brings the stored fields within the
write-back tolerance of their derived values, so an immediately repeated
run with unchanged geometry, mode and fields finds both conditions
`|derived - stored| > 1e-9` false and performs zero writes. -/
theorem claim8_reconcile_idempotent (mode : FitMode) (nla gla : ℚ) (st : FitState) :
    (reconcile mode nla gla (reconcile mode nla gla st).1).2 = 0 := by
  cases mode <;>
    simp only [reconcile] <;>
    rw [if_neg (abs_if_stable _ _), if_neg (abs_if_stable _ _)]

theorem glaV_nonneg (f : AppState) : 0 ≤ glaV f := by
  have ha : 0 ≤ addonV f := clamp0_nonneg _
  have h1 : (0 : ℚ) ≤ 1 + addonV f / 100 := by linarith
  exact mul_nonneg (clamp0_nonneg _) h1

theorem monthsV_le_durationV (f : AppState) : monthsV f ≤ durationV f := by
  have h1 : (0 : ℚ) ≤ durationV f := le_max_left _ _
  have h2 : 0 ≤ rfV f := clamp0_nonneg _
  exact max_le h1 (by linarith)

theorem totalFitV_nonneg (f : AppState) : 0 ≤ totalFitV f := by
  cases hm : f.fitMode <;> simp only [totalFitV, hm]
  · exact mul_nonneg (clamp0_nonneg _) (clamp0_nonneg _)
  · exact mul_nonneg (clamp0_nonneg _) (glaV_nonneg f)
  · exact clamp0_nonneg _

/-- C10: for every form state — the parse/clamp guards make every field
non-negative and the duration a non-negative integer — the NER chain is
non-increasing, rent ≥ ner1 ≥ ner2 ≥ ner3 ≥ ner4, equivalently each
waterfall delta dRF, dFO, dAF, dUC is ≤ 0. -/
theorem claim10_ner_monotone (f : AppState) :
    ner4V f ≤ ner3V f ∧ ner3V f ≤ ner2V f ∧ ner2V f ≤ ner1V f ∧ ner1V f ≤ rentV f ∧
    dRF f ≤ 0 ∧ dFO f ≤ 0 ∧ dAF f ≤ 0 ∧ dUC f ≤ 0 := by
  have hd : 0 < denomV f := denomV_pos f
  have key : ∀ a b : ℚ, a ≤ b → a / denomV f ≤ b / denomV f := by
    intro a b hab
    rw [div_eq_mul_inv, div_eq_mul_inv]
    exact mul_le_mul_of_nonneg_right hab (inv_nonneg.mpr hd.le)
  have hfit : 0 ≤ totalFitV f := totalFitV_nonneg f
  have hagf : 0 ≤ agentFeesV f :=
    mul_nonneg (mul_nonneg (clamp0_nonneg _) (clamp0_nonneg _)) (glaV_nonneg f)
  have hunf : 0 ≤ unforeseenV f := clamp0_nonneg _
  have h43 : ner4V f ≤ ner3V f := by
    rw [ner4V, ner3V]
    exact key _ _ (by linarith)
  have h32 : ner3V f ≤ ner2V f := by
    rw [ner3V, ner2V]
    exact key _ _ (by linarith)
  have h21 : ner2V f ≤ ner1V f := by
    rw [ner2V, ner1V]
    exact key _ _ (by linarith)
  have h1r : ner1V f ≤ rentV f := by
    rw [ner1V, div_le_iff₀ hd]
    have hrg : 0 ≤ rentV f * glaV f :=
      mul_nonneg (clamp0_nonneg _) (glaV_nonneg f)
    have h2 : grossV f ≤ rentV f * glaV f * durationV f := by
      rw [grossV]
      exact mul_le_mul_of_nonneg_left (monthsV_le_durationV f) hrg
    have h3 : rentV f * glaV f * durationV f ≤ rentV f * denomV f := by
      rw [mul_assoc]
      refine mul_le_mul_of_nonneg_left ?_ (clamp0_nonneg _)
      calc glaV f * durationV f = durationV f * glaV f := by ring
        _ ≤ denomV f := le_max_right _ _
    linarith
  have e1 : dRF f = ner1V f - rentV f := rfl
  have e2 : dFO f = ner2V f - ner1V f := rfl
  have e3 : dAF f = ner3V f - ner2V f := rfl
  have e4 : dUC f = ner4V f - ner3V f := rfl
  exact ⟨h43, h32, h21, h1r, by rw [e1]; linarith, by rw [e2]; linarith,
    by rw [e3]; linarith, by rw [e4]; linarith⟩

theorem scaled_write_le (g old d : ℚ) (hd : 0 < d) :
    |(if eps < |g - old| then g else old) * d - g * d| ≤ eps * d := by
  have h2 := mul_le_mul_of_nonneg_right (abs_if_write_le g old) hd.le
  calc |(if eps < |g - old| then g else old) * d - g * d|
      = |((if eps < |g - old| then g else old) - g) * d| := by rw [sub_mul]
    _ = |(if eps < |g - old| then g else old) - g| * |d| := abs_mul _ _
    _ = |(if eps < |g - old| then g else old) - g| * d := by rw [abs_of_pos hd]
    _ ≤ eps * d := h2

/-- The stored state of the C3 counterexample: per-NLA rate 1, per-GLA
rate stale by exactly the tolerance, total 1000000. -/
def cexSt : FitState := ⟨1, 1 + eps, 1000000⟩

/-- The state after one reconciler run on `cexSt` with
nla = gla = 1000000 in per-NLA mode. -/
def cexSt2 : FitState := (reconcile FitMode.perNLA 1000000 1000000 cexSt).1

/-- C3 counterexample: with nla = gla = 1000000 (add-on 0 %) in per-NLA
mode, a per-GLA rate that is stale by exactly 1e-9 is left unwritten, so
after the run `|fitOutTotal - fitOutPerGLA * gla|` is 1/1000, far above
the claimed absolute 1e-9 bound. -/
theorem claim3_counterexample :
    (1000000 : ℚ) = 1000000 * (1 + 0 / 100) ∧
    ¬ (|cexSt2.tot - cexSt2.perNLA * 1000000| < eps ∧
       |cexSt2.tot - cexSt2.perGLA * 1000000| < eps) := by
  have h2 : cexSt2.perGLA = 1 + eps := by with_unfolding_all rfl
  have h3 : cexSt2.tot = 1000000 := by with_unfolding_all rfl
  refine ⟨by norm_num, ?_⟩
  rintro ⟨-, hb⟩
  rw [h2, h3, abs_sub_lt_iff] at hb
  norm_num [eps] at hb

/-- C3 (amended): for nla > 0 and gla = nla·(1 + addon/100) > 0, one
reconciler run leaves every field within the write-back tolerance of the
authoritative field's implied total T: |tot - T| ≤ 1e-9,
|perNLA·nla - T| ≤ 1e-9·nla and |perGLA·gla - T| ≤ 1e-9·gla, whence the
cross-field products agree within 1e-9·(1+nla) resp. 1e-9·(1+gla) — not
within the absolute 1e-9 of the original claim — and only the mode's
authoritative field is left unmodified. -/
theorem claim3_fitout_sync (mode : FitMode) (nla addon gla : ℚ) (st : FitState)
    (hn : 0 < nla) (ha : 0 ≤ addon) (hg : gla = nla * (1 + addon / 100)) :
    |((reconcile mode nla gla st).1).tot - impliedTotal mode nla gla st| ≤ eps ∧
    |((reconcile mode nla gla st).1).perNLA * nla - impliedTotal mode nla gla st| ≤ eps * nla ∧
    |((reconcile mode nla gla st).1).perGLA * gla - impliedTotal mode nla gla st| ≤ eps * gla ∧
    |((reconcile mode nla gla st).1).tot - ((reconcile mode nla gla st).1).perNLA * nla|
      ≤ eps * (1 + nla) ∧
    |((reconcile mode nla gla st).1).tot - ((reconcile mode nla gla st).1).perGLA * gla|
      ≤ eps * (1 + gla) ∧
    (match mode with
     | FitMode.perNLA => ((reconcile mode nla gla st).1).perNLA = st.perNLA
     | FitMode.perGLA => ((reconcile mode nla gla st).1).perGLA = st.perGLA
     | FitMode.total => ((reconcile mode nla gla st).1).tot = st.tot) := by
  have had : (0 : ℚ) ≤ addon / 100 := div_nonneg ha (by norm_num)
  have hgla : 0 < gla := by
    rw [hg]
    exact mul_pos hn (by linarith)
  have hepsn : eps ≤ eps * (1 + nla) := by nlinarith [mul_pos eps_pos hn]
  have hepsg : eps ≤ eps * (1 + gla) := by nlinarith [mul_pos eps_pos hgla]
  have hepsn0 : 0 ≤ eps * nla := mul_nonneg eps_pos.le hn.le
  have hepsg0 : 0 ≤ eps * gla := mul_nonneg eps_pos.le hgla.le
  have hen : eps * nla ≤ eps * (1 + nla) := by nlinarith [eps_pos]
  have heg : eps * gla ≤ eps * (1 + gla) := by nlinarith [eps_pos]
  cases mode with
  | perNLA =>
    simp only [reconcile, impliedTotal, if_pos hgla]
    set t := st.perNLA * nla with ht
    set tot2 := if eps < |t - st.tot| then t else st.tot with htot
    set pg2 := if eps < |t / gla - st.perGLA| then t / gla else st.perGLA with hpg
    have h1 : |tot2 - t| ≤ eps := by rw [htot]; exact abs_if_write_le t st.tot
    have h3 : |pg2 * gla - t| ≤ eps * gla := by
      have h := scaled_write_le (t / gla) st.perGLA gla hgla
      rw [div_mul_cancel₀ _ hgla.ne'] at h
      rw [hpg]
      exact h
    refine ⟨h1, ?_, h3, le_trans h1 hepsn, ?_, by trivial⟩
    · rw [sub_self, abs_zero]
      exact hepsn0
    · calc |tot2 - pg2 * gla|
          ≤ |tot2 - t| + |t - pg2 * gla| := abs_sub_le _ _ _
        _ = |tot2 - t| + |pg2 * gla - t| := by rw [abs_sub_comm t]
        _ ≤ eps + eps * gla := add_le_add h1 h3
        _ = eps * (1 + gla) := by ring
  | perGLA =>
    simp only [reconcile, impliedTotal, if_pos hn]
    set t := st.perGLA * gla with ht
    set tot2 := if eps < |t - st.tot| then t else st.tot with htot
    set pn2 := if eps < |t / nla - st.perNLA| then t / nla else st.perNLA with hpn
    have h1 : |tot2 - t| ≤ eps := by rw [htot]; exact abs_if_write_le t st.tot
    have h2 : |pn2 * nla - t| ≤ eps * nla := by
      have h := scaled_write_le (t / nla) st.perNLA nla hn
      rw [div_mul_cancel₀ _ hn.ne'] at h
      rw [hpn]
      exact h
    refine ⟨h1, h2, ?_, ?_, le_trans h1 hepsg, by trivial⟩
    · rw [sub_self, abs_zero]
      exact hepsg0
    · calc |tot2 - pn2 * nla|
          ≤ |tot2 - t| + |t - pn2 * nla| := abs_sub_le _ _ _
        _ = |tot2 - t| + |pn2 * nla - t| := by rw [abs_sub_comm t]
        _ ≤ eps + eps * nla := add_le_add h1 h2
        _ = eps * (1 + nla) := by ring
  | total =>
    simp only [reconcile, impliedTotal, if_pos hn, if_pos hgla]
    set pn2 := if eps < |st.tot / nla - st.perNLA| then st.tot / nla else st.perNLA with hpn
    set pg2 := if eps < |st.tot / gla - st.perGLA| then st.tot / gla else st.perGLA with hpg
    have h2 : |pn2 * nla - st.tot| ≤ eps * nla := by
      have h := scaled_write_le (st.tot / nla) st.perNLA nla hn
      rw [div_mul_cancel₀ _ hn.ne'] at h
      rw [hpn]
      exact h
    have h3 : |pg2 * gla - st.tot| ≤ eps * gla := by
      have h := scaled_write_le (st.tot / gla) st.perGLA gla hgla
      rw [div_mul_cancel₀ _ hgla.ne'] at h
      rw [hpg]
      exact h
    refine ⟨?_, h2, h3, ?_, ?_, by trivial⟩
    · rw [sub_self, abs_zero]
      exact eps_pos.le
    · rw [abs_sub_comm]
      exact le_trans h2 hen
    · rw [abs_sub_comm]
      exact le_trans h3 heg

/-- Witness for C3: per-NLA mode with nla = gla = 1, add-on 0, all stored
fields 0. -/
theorem claim3_fitout_sync_witness :
    |((reconcile FitMode.perNLA 1 1 ⟨0, 0, 0⟩).1).tot
        - impliedTotal FitMode.perNLA 1 1 ⟨0, 0, 0⟩| ≤ eps ∧
    |((reconcile FitMode.perNLA 1 1 ⟨0, 0, 0⟩).1).perNLA * 1
        - impliedTotal FitMode.perNLA 1 1 ⟨0, 0, 0⟩| ≤ eps * 1 ∧
    |((reconcile FitMode.perNLA 1 1 ⟨0, 0, 0⟩).1).perGLA * 1
        - impliedTotal FitMode.perNLA 1 1 ⟨0, 0, 0⟩| ≤ eps * 1 ∧
    |((reconcile FitMode.perNLA 1 1 ⟨0, 0, 0⟩).1).tot
        - ((reconcile FitMode.perNLA 1 1 ⟨0, 0, 0⟩).1).perNLA * 1| ≤ eps * (1 + 1) ∧
    |((reconcile FitMode.perNLA 1 1 ⟨0, 0, 0⟩).1).tot
        - ((reconcile FitMode.perNLA 1 1 ⟨0, 0, 0⟩).1).perGLA * 1| ≤ eps * (1 + 1) ∧
    ((reconcile FitMode.perNLA 1 1 ⟨0, 0, 0⟩).1).perNLA = (⟨0, 0, 0⟩ : FitState).perNLA :=
  claim3_fitout_sync FitMode.perNLA 1 0 1 ⟨0, 0, 0⟩ zero_lt_one le_rfl (by norm_num)
